import Mathlib

/-!
Shallow embedding of the database schema and row-level-security (RLS)
policies declared in
`supabase/migrations/20260105054332_create_base_schema.sql`.

Rows are Lean structures mirroring the table columns; the CHECK
constraints on `role` and `status` are embedded as inductive types; a
database state is three lists of rows.  Each `CREATE POLICY` clause
becomes one Boolean predicate over (database, caller uid, row), and the
per-operation decision is the Postgres combination of permissive
policies: the disjunction of the USING clauses on the existing row and,
for INSERT/UPDATE, the disjunction of the WITH CHECK clauses on the new
row.  Uuids are modelled as naturals; the callers are always
authenticated (every policy in the migration is `TO authenticated`).
-/

namespace NambaThaa

/-- Tag for `role text CHECK (role IN ('admin', 'co_leader', 'employee'))`. -/
inductive Role where
  | admin
  | co_leader
  | employee
deriving DecidableEq, Repr

/-- Tag for `status text CHECK (status IN ('pending', 'converted', 'dropped'))`. -/
inductive InquiryStatus where
  | pending
  | converted
  | dropped
deriving DecidableEq, Repr

/-- A row of the `profiles` table. -/
structure Profile where
  id : Nat
  email : String
  full_name : String
  role : Role
  created_by : Option Nat
  is_active : Bool
  created_at : Nat
  updated_at : Nat
deriving DecidableEq, Repr

/-- A row of the `inquiries` table. -/
structure Inquiry where
  id : Nat
  student_name : String
  contact_number : String
  email : Option String
  course_interested : String
  more_input : Option String
  status : InquiryStatus
  assigned_to : Option Nat
  created_by : Option Nat
  created_at : Nat
  updated_at : Nat
deriving DecidableEq, Repr

/-- A row of the `follow_ups` table. -/
structure FollowUp where
  id : Nat
  inquiry_id : Nat
  notes : String
  follow_up_date : Nat
  voice_recording_url : Option String
  created_by : Option Nat
  created_at : Nat
deriving DecidableEq, Repr

/-- The database state: the contents of the three tables. -/
structure DB where
  profiles : List Profile
  inquiries : List Inquiry
  follow_ups : List FollowUp
deriving DecidableEq, Repr

/-- The subquery EXISTS (SELECT 1 FROM profiles p WHERE p.id = auth.uid()
AND p.role = r) shared by the admin-gated policies. -/
def hasRole (db : DB) (uid : Nat) (r : Role) : Bool :=
  db.profiles.any fun p => decide (p.id = uid) && decide (p.role = r)

/-- The subquery EXISTS (SELECT 1 FROM profiles p WHERE p.id = auth.uid()
AND p.role IN ('admin', 'co_leader')). -/
def isAdminOrCoLeader (db : DB) (uid : Nat) : Bool :=
  db.profiles.any fun p =>
    decide (p.id = uid) && (decide (p.role = Role.admin) || decide (p.role = Role.co_leader))

/-! Policies on `profiles`, one definition per CREATE POLICY statement. -/

/-- Policy "Admins can view all profiles" (SELECT, USING). -/
def adminsCanViewAllProfiles (db : DB) (uid : Nat) (_row : Profile) : Bool :=
  hasRole db uid Role.admin

/-- Policy "Co-leaders can view all profiles" (SELECT, USING). -/
def coLeadersCanViewAllProfiles (db : DB) (uid : Nat) (_row : Profile) : Bool :=
  hasRole db uid Role.co_leader

/-- Policy "Employees can view own profile" (SELECT, USING id = auth.uid()). -/
def employeesCanViewOwnProfile (_db : DB) (uid : Nat) (row : Profile) : Bool :=
  decide (row.id = uid)

/-- Policy "Only admins can insert profiles" (INSERT, WITH CHECK). -/
def onlyAdminsCanInsertProfiles (db : DB) (uid : Nat) (_row : Profile) : Bool :=
  hasRole db uid Role.admin

/-- Policy "Only admins can update profiles", USING clause. -/
def onlyAdminsCanUpdateProfilesUsing (db : DB) (uid : Nat) (_row : Profile) : Bool :=
  hasRole db uid Role.admin

/-- Policy "Only admins can update profiles", WITH CHECK clause. -/
def onlyAdminsCanUpdateProfilesCheck (db : DB) (uid : Nat) (_row : Profile) : Bool :=
  hasRole db uid Role.admin

/-- Policy "Only admins can delete profiles" (DELETE, USING). -/
def onlyAdminsCanDeleteProfiles (db : DB) (uid : Nat) (_row : Profile) : Bool :=
  hasRole db uid Role.admin

/-! Policies on `inquiries`. -/

/-- Policy "Admins and co-leaders can view all inquiries" (SELECT, USING). -/
def adminsAndCoLeadersCanViewAllInquiries (db : DB) (uid : Nat) (_row : Inquiry) : Bool :=
  isAdminOrCoLeader db uid

/-- Policy "Employees can view assigned inquiries" (SELECT, USING
assigned_to = auth.uid(); a NULL assigned_to never matches). -/
def employeesCanViewAssignedInquiries (_db : DB) (uid : Nat) (row : Inquiry) : Bool :=
  decide (row.assigned_to = some uid)

/-- Policy "Admins and co-leaders can create inquiries" (INSERT, WITH CHECK). -/
def adminsAndCoLeadersCanCreateInquiries (db : DB) (uid : Nat) (_row : Inquiry) : Bool :=
  isAdminOrCoLeader db uid

/-- Policy "Admins and co-leaders can update all inquiries", USING clause. -/
def adminsAndCoLeadersCanUpdateAllInquiriesUsing (db : DB) (uid : Nat) (_row : Inquiry) : Bool :=
  isAdminOrCoLeader db uid

/-- Policy "Admins and co-leaders can update all inquiries", WITH CHECK clause. -/
def adminsAndCoLeadersCanUpdateAllInquiriesCheck (db : DB) (uid : Nat) (_row : Inquiry) : Bool :=
  isAdminOrCoLeader db uid

/-- Policy "Employees can update assigned inquiries", USING clause. -/
def employeesCanUpdateAssignedInquiriesUsing (_db : DB) (uid : Nat) (row : Inquiry) : Bool :=
  decide (row.assigned_to = some uid)

/-- Policy "Employees can update assigned inquiries", WITH CHECK clause. -/
def employeesCanUpdateAssignedInquiriesCheck (_db : DB) (uid : Nat) (row : Inquiry) : Bool :=
  decide (row.assigned_to = some uid)

/-- Policy "Only admins can delete inquiries" (DELETE, USING). -/
def onlyAdminsCanDeleteInquiries (db : DB) (uid : Nat) (_row : Inquiry) : Bool :=
  hasRole db uid Role.admin

/-! Policies on `follow_ups`. -/

/-- Policy "Users can view follow-ups for accessible inquiries" (SELECT,
USING): EXISTS over inquiries i joined with profiles p ON p.id = auth.uid()
where i.id = follow_ups.inquiry_id and (p.role IN ('admin','co_leader') or
i.assigned_to = auth.uid()). -/
def usersCanViewFollowUpsForAccessibleInquiries (db : DB) (uid : Nat) (row : FollowUp) : Bool :=
  db.inquiries.any fun i =>
    db.profiles.any fun p =>
      decide (p.id = uid) && decide (i.id = row.inquiry_id) &&
        ((decide (p.role = Role.admin) || decide (p.role = Role.co_leader)) ||
          decide (i.assigned_to = some uid))

/-- Policy "Users can create follow-ups for accessible inquiries" (INSERT,
WITH CHECK): same EXISTS condition as the SELECT policy. -/
def usersCanCreateFollowUpsForAccessibleInquiries (db : DB) (uid : Nat) (row : FollowUp) : Bool :=
  db.inquiries.any fun i =>
    db.profiles.any fun p =>
      decide (p.id = uid) && decide (i.id = row.inquiry_id) &&
        ((decide (p.role = Role.admin) || decide (p.role = Role.co_leader)) ||
          decide (i.assigned_to = some uid))

/-- Policy "Users can update own follow-ups", USING clause. -/
def usersCanUpdateOwnFollowUpsUsing (_db : DB) (uid : Nat) (row : FollowUp) : Bool :=
  decide (row.created_by = some uid)

/-- Policy "Users can update own follow-ups", WITH CHECK clause. -/
def usersCanUpdateOwnFollowUpsCheck (_db : DB) (uid : Nat) (row : FollowUp) : Bool :=
  decide (row.created_by = some uid)

/-! Per-operation decisions: Postgres ORs the permissive policies of the
same (table, operation); with RLS enabled and no applicable policy, the
default is deny. -/

/-- SELECT visibility of a `profiles` row. -/
def profilesSelectAllowed (db : DB) (uid : Nat) (row : Profile) : Bool :=
  adminsCanViewAllProfiles db uid row || coLeadersCanViewAllProfiles db uid row ||
    employeesCanViewOwnProfile db uid row

/-- INSERT permission for a new `profiles` row. -/
def profilesInsertAllowed (db : DB) (uid : Nat) (row : Profile) : Bool :=
  onlyAdminsCanInsertProfiles db uid row

/-- UPDATE permission on `profiles`: USING on the old row and WITH CHECK
on the proposed new row. -/
def profilesUpdateAllowed (db : DB) (uid : Nat) (old new : Profile) : Bool :=
  onlyAdminsCanUpdateProfilesUsing db uid old && onlyAdminsCanUpdateProfilesCheck db uid new

/-- DELETE permission on a `profiles` row. -/
def profilesDeleteAllowed (db : DB) (uid : Nat) (row : Profile) : Bool :=
  onlyAdminsCanDeleteProfiles db uid row

/-- SELECT visibility of an `inquiries` row. -/
def inquiriesSelectAllowed (db : DB) (uid : Nat) (row : Inquiry) : Bool :=
  adminsAndCoLeadersCanViewAllInquiries db uid row ||
    employeesCanViewAssignedInquiries db uid row

/-- INSERT permission for a new `inquiries` row. -/
def inquiriesInsertAllowed (db : DB) (uid : Nat) (row : Inquiry) : Bool :=
  adminsAndCoLeadersCanCreateInquiries db uid row

/-- UPDATE permission on `inquiries`: the old row must pass some USING
clause and the proposed new row must pass some WITH CHECK clause. -/
def inquiriesUpdateAllowed (db : DB) (uid : Nat) (old new : Inquiry) : Bool :=
  (adminsAndCoLeadersCanUpdateAllInquiriesUsing db uid old ||
      employeesCanUpdateAssignedInquiriesUsing db uid old) &&
    (adminsAndCoLeadersCanUpdateAllInquiriesCheck db uid new ||
      employeesCanUpdateAssignedInquiriesCheck db uid new)

/-- DELETE permission on an `inquiries` row. -/
def inquiriesDeleteAllowed (db : DB) (uid : Nat) (row : Inquiry) : Bool :=
  onlyAdminsCanDeleteInquiries db uid row

/-- SELECT visibility of a `follow_ups` row. -/
def followUpsSelectAllowed (db : DB) (uid : Nat) (row : FollowUp) : Bool :=
  usersCanViewFollowUpsForAccessibleInquiries db uid row

/-- INSERT permission for a new `follow_ups` row. -/
def followUpsInsertAllowed (db : DB) (uid : Nat) (row : FollowUp) : Bool :=
  usersCanCreateFollowUpsForAccessibleInquiries db uid row

/-- UPDATE permission on `follow_ups`. -/
def followUpsUpdateAllowed (db : DB) (uid : Nat) (old new : FollowUp) : Bool :=
  usersCanUpdateOwnFollowUpsUsing db uid old && usersCanUpdateOwnFollowUpsCheck db uid new

/-- The migration declares no DELETE policy on `follow_ups`. -/
def followUpsDeletePolicies : List (DB → Nat → FollowUp → Bool) := []

/-- DELETE permission on a `follow_ups` row: the disjunction over the
(empty) list of DELETE policies; with RLS enabled this defaults to deny. -/
def followUpsDeleteAllowed (db : DB) (uid : Nat) (row : FollowUp) : Bool :=
  followUpsDeletePolicies.any fun pol => pol db uid row

/-- The rows of `profiles` a caller sees on SELECT. -/
def visibleProfiles (db : DB) (uid : Nat) : List Profile :=
  db.profiles.filter fun row => profilesSelectAllowed db uid row

/-- The rows of `inquiries` a caller sees on SELECT. -/
def visibleInquiries (db : DB) (uid : Nat) : List Inquiry :=
  db.inquiries.filter fun row => inquiriesSelectAllowed db uid row

/-! Operational model of the write requests the client issues, with the
foreign-key actions declared in the schema.  A mutation is decided per
row by the RLS policies above; INSERT and UPDATE are then rejected
wholesale when the resulting state would violate a declared constraint
(primary keys, foreign keys), matching the immediate constraint checks
of the store.  DELETE instead runs the referential actions of the
schema: `follow_ups.inquiry_id ... ON DELETE CASCADE`, and
`ON DELETE SET NULL` on the three columns referencing `profiles(id)`. -/

/-- A foreign-key reference is valid when NULL (for nullable columns) or
when its target key exists. -/
def refOk (keys : List Nat) : Option Nat → Bool
  | none => true
  | some a => keys.any fun k => decide (k = a)

/-- The declared constraints of the schema: primary-key uniqueness on
the three tables, the foreign keys `inquiries.assigned_to` and
`inquiries.created_by` and `follow_ups.created_by` into `profiles(id)`,
and the NOT NULL foreign key `follow_ups.inquiry_id` into
`inquiries(id)`. -/
def constraintsOk (db : DB) : Bool :=
  decide ((db.profiles.map Profile.id).Nodup) &&
    decide ((db.inquiries.map Inquiry.id).Nodup) &&
    decide ((db.follow_ups.map FollowUp.id).Nodup) &&
    (db.inquiries.all fun i =>
      refOk (db.profiles.map Profile.id) i.assigned_to &&
        refOk (db.profiles.map Profile.id) i.created_by) &&
    (db.follow_ups.all fun f =>
      refOk (db.inquiries.map Inquiry.id) (some f.inquiry_id) &&
        refOk (db.profiles.map Profile.id) f.created_by)

/-- Every follow-up references an existing inquiry: the integrity
guaranteed by the NOT NULL foreign key `follow_ups.inquiry_id
REFERENCES inquiries(id) ON DELETE CASCADE`. -/
def NoOrphanFollowUps (db : DB) : Prop :=
  ∀ f ∈ db.follow_ups, ∃ i ∈ db.inquiries, i.id = f.inquiry_id

/-- The `profiles` rows removed by a DELETE request for key `pid` issued
by `uid`: the rows matching the WHERE clause that pass the DELETE
policy (rows the policy hides are silently skipped). -/
def profileRowDeleted (db : DB) (uid pid : Nat) (p : Profile) : Bool :=
  decide (p.id = pid) && profilesDeleteAllowed db uid p

/-- ON DELETE SET NULL action for a column referencing `profiles(id)`:
the reference is cleared exactly when its target row is being deleted. -/
def setNullProfileRef (db : DB) (uid pid : Nat) (r : Option Nat) : Option Nat :=
  r.bind fun a =>
    if db.profiles.any (fun p => profileRowDeleted db uid pid p && decide (p.id = a)) then none
    else some a

/-- The `inquiries` rows removed by a DELETE request for key `iid`
issued by `uid`. -/
def inquiryRowDeleted (db : DB) (uid iid : Nat) (i : Inquiry) : Bool :=
  decide (i.id = iid) && inquiriesDeleteAllowed db uid i

/-- The write requests of the client, tagged with the caller uid. -/
inductive Op where
  | insertProfile (uid : Nat) (row : Profile)
  | updateProfile (uid pid : Nat) (row : Profile)
  | deleteProfile (uid pid : Nat)
  | insertInquiry (uid : Nat) (row : Inquiry)
  | updateInquiry (uid iid : Nat) (row : Inquiry)
  | deleteInquiry (uid iid : Nat)
  | insertFollowUp (uid : Nat) (row : FollowUp)
  | updateFollowUp (uid fid : Nat) (row : FollowUp)
  | deleteFollowUp (uid fid : Nat)

/-- Gate a tentative post-state on the schema constraints: a violating
INSERT or UPDATE is rejected and leaves the database unchanged. -/
def checked (db db' : DB) : DB :=
  if constraintsOk db' then db' else db

/-- One write request.  UPDATE replaces each matching row that passes
both the USING and WITH CHECK decision by the proposed row; DELETE
removes the matching rows that pass the DELETE decision and fires the
referential actions of the schema. -/
def applyOp (db : DB) : Op → DB
  | .insertProfile uid row =>
      if profilesInsertAllowed db uid row then
        checked db { db with profiles := db.profiles ++ [row] }
      else db
  | .updateProfile uid pid row =>
      checked db { db with profiles := db.profiles.map fun p =>
        if (decide (p.id = pid) && profilesUpdateAllowed db uid p row) then row else p }
  | .deleteProfile uid pid =>
      { profiles := db.profiles.filter fun p => !profileRowDeleted db uid pid p
        inquiries := db.inquiries.map fun i =>
          { i with
            assigned_to := setNullProfileRef db uid pid i.assigned_to
            created_by := setNullProfileRef db uid pid i.created_by }
        follow_ups := db.follow_ups.map fun f =>
          { f with created_by := setNullProfileRef db uid pid f.created_by } }
  | .insertInquiry uid row =>
      if inquiriesInsertAllowed db uid row then
        checked db { db with inquiries := db.inquiries ++ [row] }
      else db
  | .updateInquiry uid iid row =>
      checked db { db with inquiries := db.inquiries.map fun i =>
        if (decide (i.id = iid) && inquiriesUpdateAllowed db uid i row) then row else i }
  | .deleteInquiry uid iid =>
      { db with
        inquiries := db.inquiries.filter fun i => !inquiryRowDeleted db uid iid i
        follow_ups := db.follow_ups.filter fun f =>
          !(db.inquiries.any fun i =>
            inquiryRowDeleted db uid iid i && decide (i.id = f.inquiry_id)) }
  | .insertFollowUp uid row =>
      if followUpsInsertAllowed db uid row then
        checked db { db with follow_ups := db.follow_ups ++ [row] }
      else db
  | .updateFollowUp uid fid row =>
      checked db { db with follow_ups := db.follow_ups.map fun f =>
        if (decide (f.id = fid) && followUpsUpdateAllowed db uid f row) then row else f }
  | .deleteFollowUp uid fid =>
      { db with follow_ups := db.follow_ups.filter fun f =>
          !(decide (f.id = fid) && followUpsDeleteAllowed db uid f) }

/-- A sequence of write requests, applied in order. -/
def applyOps (db : DB) (ops : List Op) : DB :=
  ops.foldl applyOp db

/-- Rewrite every is_active flag of the profiles table, leaving every
other column unchanged: used to compare authorization decisions across
states differing only in activation status. -/
def overwriteIsActive (g : Profile → Bool) (db : DB) : DB :=
  { db with profiles := db.profiles.map fun p => { p with is_active := g p } }

/-! Sample rows, used to instantiate the theorems below at concrete
inputs. -/

/-- A sample admin profile. -/
def adminRow : Profile :=
  { id := 1, email := "admin", full_name := "Admin", role := Role.admin,
    created_by := none, is_active := true, created_at := 0, updated_at := 0 }

/-- A sample co-leader profile. -/
def coLeaderRow : Profile :=
  { id := 2, email := "lead", full_name := "Lead", role := Role.co_leader,
    created_by := some 1, is_active := true, created_at := 0, updated_at := 0 }

/-- A sample employee profile. -/
def employeeRow : Profile :=
  { id := 3, email := "emp", full_name := "Emp", role := Role.employee,
    created_by := some 1, is_active := true, created_at := 0, updated_at := 0 }

/-- A sample inquiry assigned to the employee. -/
def inquiryRow : Inquiry :=
  { id := 10, student_name := "Stu", contact_number := "12345", email := none,
    course_interested := "Math", more_input := none, status := InquiryStatus.pending,
    assigned_to := some 3, created_by := some 1, created_at := 0, updated_at := 0 }

/-- A sample follow-up on the sample inquiry. -/
def followUpRow : FollowUp :=
  { id := 20, inquiry_id := 10, notes := "call", follow_up_date := 7,
    voice_recording_url := none, created_by := some 3, created_at := 0 }

/-- A small concrete database state. -/
def sampleDB : DB :=
  { profiles := [adminRow, coLeaderRow, employeeRow]
    inquiries := [inquiryRow]
    follow_ups := [followUpRow] }

/-! Auxiliary lemmas about the role subqueries and list scans. -/

/-- With unique profile ids, two rows of the table sharing an id are the
same row. -/
theorem eq_of_mem_of_id_eq {l : List Profile} (hnd : (l.map Profile.id).Nodup)
    {p q : Profile} (hp : p ∈ l) (hq : q ∈ l) (h : p.id = q.id) : p = q :=
  List.inj_on_of_nodup_map hnd hp hq h

/-- With unique inquiry ids, two rows of the table sharing an id are the
same row. -/
theorem inquiry_eq_of_mem_of_id_eq {l : List Inquiry} (hnd : (l.map Inquiry.id).Nodup)
    {a b : Inquiry} (ha : a ∈ l) (hb : b ∈ l) (h : a.id = b.id) : a = b :=
  List.inj_on_of_nodup_map hnd ha hb h

/-- With unique ids, the role subquery evaluated for a stored caller row
tests exactly that row. -/
theorem hasRole_iff {db : DB} {e : Profile} (hnd : (db.profiles.map Profile.id).Nodup)
    (he : e ∈ db.profiles) (r : Role) :
    hasRole db e.id r = true ↔ e.role = r := by
  unfold hasRole
  simp only [List.any_eq_true, Bool.and_eq_true, decide_eq_true_eq]
  constructor
  · rintro ⟨p, hp, hid, hrole⟩
    have hpe : p = e := eq_of_mem_of_id_eq hnd hp he hid
    exact hpe ▸ hrole
  · intro h
    exact ⟨e, he, rfl, h⟩

/-- The role subquery holds whenever the caller row is stored with the
tested role. -/
theorem hasRole_of_mem {db : DB} {e : Profile} (he : e ∈ db.profiles) {r : Role}
    (h : e.role = r) : hasRole db e.id r = true := by
  unfold hasRole
  simp only [List.any_eq_true, Bool.and_eq_true, decide_eq_true_eq]
  exact ⟨e, he, rfl, h⟩

/-- With unique ids, the role subquery is false for a stored caller row
of a different role. -/
theorem hasRole_eq_false {db : DB} {e : Profile} (hnd : (db.profiles.map Profile.id).Nodup)
    (he : e ∈ db.profiles) {r : Role} (h : e.role ≠ r) :
    hasRole db e.id r = false := by
  cases hr : hasRole db e.id r with
  | false => rfl
  | true => exact absurd ((hasRole_iff hnd he r).mp hr) h

/-- With unique ids, the admin-or-co-leader subquery evaluated for a
stored caller row tests exactly that row. -/
theorem isAdminOrCoLeader_iff {db : DB} {e : Profile}
    (hnd : (db.profiles.map Profile.id).Nodup) (he : e ∈ db.profiles) :
    isAdminOrCoLeader db e.id = true ↔ (e.role = Role.admin ∨ e.role = Role.co_leader) := by
  unfold isAdminOrCoLeader
  simp only [List.any_eq_true, Bool.and_eq_true, Bool.or_eq_true, decide_eq_true_eq]
  constructor
  · rintro ⟨p, hp, hid, hrole⟩
    have hpe : p = e := eq_of_mem_of_id_eq hnd hp he hid
    exact hpe ▸ hrole
  · intro h
    exact ⟨e, he, rfl, h⟩

/-- With unique ids, the admin-or-co-leader subquery is false for a
stored employee caller. -/
theorem isAdminOrCoLeader_eq_false {db : DB} {e : Profile}
    (hnd : (db.profiles.map Profile.id).Nodup) (he : e ∈ db.profiles)
    (h : e.role = Role.employee) : isAdminOrCoLeader db e.id = false := by
  cases hr : isAdminOrCoLeader db e.id with
  | false => rfl
  | true =>
    rcases (isAdminOrCoLeader_iff hnd he).mp hr with h' | h' <;> rw [h] at h' <;> cases h'

/-- A scan with an always-false predicate finds nothing. -/
theorem any_const_false {α : Type} (l : List α) : (l.any fun _ => false) = false := by
  simp

/-! Claim theorems. -/

/-- C1: with unique profile ids, a stored employee caller e sees an
inquiry row i on SELECT iff i.assigned_to = e.id, while a stored admin
or co-leader caller sees every inquiry row. -/
theorem inquiry_select_employee_assigned_only (db : DB) (e : Profile)
    (hnd : (db.profiles.map Profile.id).Nodup) (he : e ∈ db.profiles) :
    (e.role = Role.employee →
      ∀ i : Inquiry, inquiriesSelectAllowed db e.id i = true ↔ i.assigned_to = some e.id) ∧
    ((e.role = Role.admin ∨ e.role = Role.co_leader) →
      ∀ i : Inquiry, inquiriesSelectAllowed db e.id i = true) := by
  constructor
  · intro hrole i
    have h1 : isAdminOrCoLeader db e.id = false := isAdminOrCoLeader_eq_false hnd he hrole
    unfold inquiriesSelectAllowed adminsAndCoLeadersCanViewAllInquiries
      employeesCanViewAssignedInquiries
    rw [h1]
    simp
  · intro hrole i
    have h1 : isAdminOrCoLeader db e.id = true := (isAdminOrCoLeader_iff hnd he).mpr hrole
    unfold inquiriesSelectAllowed adminsAndCoLeadersCanViewAllInquiries
      employeesCanViewAssignedInquiries
    rw [h1]
    simp

/-- Witness for C1 at the sample database. -/
theorem inquiry_select_employee_assigned_only_witness :
    ((sampleDB.profiles.map Profile.id).Nodup ∧ employeeRow ∈ sampleDB.profiles) ∧
    ((employeeRow.role = Role.employee →
        ∀ i : Inquiry, inquiriesSelectAllowed sampleDB employeeRow.id i = true ↔
          i.assigned_to = some employeeRow.id) ∧
      ((employeeRow.role = Role.admin ∨ employeeRow.role = Role.co_leader) →
        ∀ i : Inquiry, inquiriesSelectAllowed sampleDB employeeRow.id i = true)) :=
  ⟨⟨by decide, by decide⟩,
    inquiry_select_employee_assigned_only sampleDB employeeRow (by decide) (by decide)⟩

/-- C2: with unique profile ids, an UPDATE of an inquiry row by a stored
employee caller e is permitted iff the old row and the proposed new row
both carry assigned_to = e.id; so an inquiry not assigned to e is never
updatable by e, and e cannot reassign an assigned inquiry away. -/
theorem inquiry_update_employee_policy (db : DB) (e : Profile) (old new : Inquiry)
    (hnd : (db.profiles.map Profile.id).Nodup) (he : e ∈ db.profiles)
    (hrole : e.role = Role.employee) :
    inquiriesUpdateAllowed db e.id old new = true ↔
      (old.assigned_to = some e.id ∧ new.assigned_to = some e.id) := by
  have h1 : isAdminOrCoLeader db e.id = false := isAdminOrCoLeader_eq_false hnd he hrole
  unfold inquiriesUpdateAllowed adminsAndCoLeadersCanUpdateAllInquiriesUsing
    adminsAndCoLeadersCanUpdateAllInquiriesCheck employeesCanUpdateAssignedInquiriesUsing
    employeesCanUpdateAssignedInquiriesCheck
  rw [h1]
  simp

/-- Witness for C2 at the sample database. -/
theorem inquiry_update_employee_policy_witness :
    ((sampleDB.profiles.map Profile.id).Nodup ∧ employeeRow ∈ sampleDB.profiles ∧
      employeeRow.role = Role.employee) ∧
    (inquiriesUpdateAllowed sampleDB employeeRow.id inquiryRow inquiryRow = true ↔
      (inquiryRow.assigned_to = some employeeRow.id ∧
        inquiryRow.assigned_to = some employeeRow.id)) :=
  ⟨⟨by decide, by decide, by decide⟩,
    inquiry_update_employee_policy sampleDB employeeRow inquiryRow inquiryRow
      (by decide) (by decide) (by decide)⟩

/-- C3: with unique profile ids, DELETE on an inquiries row or on a
profiles row is permitted for a stored caller c iff c.role = admin; a
co-leader or employee caller issuing either delete request is denied on
every row and the database is unchanged. -/
theorem delete_admin_only (db : DB) (c : Profile)
    (hnd : (db.profiles.map Profile.id).Nodup) (hc : c ∈ db.profiles) :
    (∀ i : Inquiry, inquiriesDeleteAllowed db c.id i = true ↔ c.role = Role.admin) ∧
    (∀ p : Profile, profilesDeleteAllowed db c.id p = true ↔ c.role = Role.admin) ∧
    ((c.role = Role.co_leader ∨ c.role = Role.employee) →
      ∀ iid pid : Nat,
        applyOp db (Op.deleteInquiry c.id iid) = db ∧
        applyOp db (Op.deleteProfile c.id pid) = db) := by
  refine ⟨?_, ?_, ?_⟩
  · intro i
    unfold inquiriesDeleteAllowed onlyAdminsCanDeleteInquiries
    exact hasRole_iff hnd hc Role.admin
  · intro p
    unfold profilesDeleteAllowed onlyAdminsCanDeleteProfiles
    exact hasRole_iff hnd hc Role.admin
  · intro hrole iid pid
    have hne : c.role ≠ Role.admin := by rcases hrole with h | h <;> simp [h]
    have hfalse : hasRole db c.id Role.admin = false := hasRole_eq_false hnd hc hne
    constructor
    · simp [applyOp, inquiryRowDeleted, inquiriesDeleteAllowed,
        onlyAdminsCanDeleteInquiries, hfalse, any_const_false]
    · simp [applyOp, profileRowDeleted, profilesDeleteAllowed,
        onlyAdminsCanDeleteProfiles, setNullProfileRef, hfalse]

/-- Witness for C3 at the sample database, with the co-leader caller. -/
theorem delete_admin_only_witness :
    ((sampleDB.profiles.map Profile.id).Nodup ∧ coLeaderRow ∈ sampleDB.profiles) ∧
    ((∀ i : Inquiry, inquiriesDeleteAllowed sampleDB coLeaderRow.id i = true ↔
        coLeaderRow.role = Role.admin) ∧
      (∀ p : Profile, profilesDeleteAllowed sampleDB coLeaderRow.id p = true ↔
        coLeaderRow.role = Role.admin) ∧
      ((coLeaderRow.role = Role.co_leader ∨ coLeaderRow.role = Role.employee) →
        ∀ iid pid : Nat,
          applyOp sampleDB (Op.deleteInquiry coLeaderRow.id iid) = sampleDB ∧
          applyOp sampleDB (Op.deleteProfile coLeaderRow.id pid) = sampleDB)) :=
  ⟨⟨by decide, by decide⟩, delete_admin_only sampleDB coLeaderRow (by decide) (by decide)⟩

/-- Filtering a table with unique ids by the id of a stored row keeps
exactly that row. -/
theorem filter_id_eq_singleton {l : List Profile} (hnd : (l.map Profile.id).Nodup)
    {p : Profile} (hp : p ∈ l) :
    (l.filter fun q => decide (q.id = p.id)) = [p] := by
  induction l with
  | nil => cases hp
  | cons a t ih =>
    rw [List.map_cons, List.nodup_cons] at hnd
    rcases List.mem_cons.mp hp with rfl | hpt
    · rw [List.filter_cons_of_pos (by simp)]
      have ht : (t.filter fun q => decide (q.id = p.id)) = [] := by
        rw [List.filter_eq_nil_iff]
        intro q hq
        simp only [decide_eq_true_eq]
        intro hqa
        exact hnd.1 (hqa ▸ List.mem_map_of_mem Profile.id hq)
      rw [ht]
    · have hne : ¬(a.id = p.id) := by
        intro h
        exact hnd.1 (h ▸ List.mem_map_of_mem Profile.id hpt)
      rw [List.filter_cons_of_neg (by simpa using hne)]
      exact ih hnd.2 hpt

/-- C4: with unique profile ids, a SELECT over the profiles table by a
stored employee caller returns exactly the caller row, while an admin
or co-leader caller sees the whole table. -/
theorem profile_select_visibility (db : DB) (c : Profile)
    (hnd : (db.profiles.map Profile.id).Nodup) (hc : c ∈ db.profiles) :
    (c.role = Role.employee → visibleProfiles db c.id = [c]) ∧
    ((c.role = Role.admin ∨ c.role = Role.co_leader) →
      visibleProfiles db c.id = db.profiles) := by
  constructor
  · intro hrole
    have ha : hasRole db c.id Role.admin = false :=
      hasRole_eq_false hnd hc (by simp [hrole])
    have hco : hasRole db c.id Role.co_leader = false :=
      hasRole_eq_false hnd hc (by simp [hrole])
    unfold visibleProfiles profilesSelectAllowed adminsCanViewAllProfiles
      coLeadersCanViewAllProfiles employeesCanViewOwnProfile
    rw [ha, hco]
    simpa using filter_id_eq_singleton hnd hc
  · intro hrole
    unfold visibleProfiles
    rw [List.filter_eq_self]
    intro q hq
    unfold profilesSelectAllowed adminsCanViewAllProfiles coLeadersCanViewAllProfiles
      employeesCanViewOwnProfile
    rcases hrole with h | h
    · rw [hasRole_of_mem hc h]
      simp
    · rw [hasRole_of_mem hc h]
      simp

/-- Witness for C4 at the sample database, with the employee caller. -/
theorem profile_select_visibility_witness :
    ((sampleDB.profiles.map Profile.id).Nodup ∧ employeeRow ∈ sampleDB.profiles) ∧
    ((employeeRow.role = Role.employee →
        visibleProfiles sampleDB employeeRow.id = [employeeRow]) ∧
      ((employeeRow.role = Role.admin ∨ employeeRow.role = Role.co_leader) →
        visibleProfiles sampleDB employeeRow.id = sampleDB.profiles)) :=
  ⟨⟨by decide, by decide⟩, profile_select_visibility sampleDB employeeRow (by decide) (by decide)⟩

/-- C5: an UPDATE of a follow-ups row is permitted iff the stored row
and the proposed new row both carry created_by = caller id; the
decision reads no role and no other table, so it is identical in every
database state — in particular there is no admin override. -/
theorem followup_update_creator_only (db db' : DB) (uid : Nat) (old new : FollowUp) :
    (followUpsUpdateAllowed db uid old new = true ↔
      (old.created_by = some uid ∧ new.created_by = some uid)) ∧
    followUpsUpdateAllowed db uid old new = followUpsUpdateAllowed db' uid old new := by
  unfold followUpsUpdateAllowed usersCanUpdateOwnFollowUpsUsing usersCanUpdateOwnFollowUpsCheck
  simp

/-- C6: with unique profile and inquiry ids, an INSERT of a follow-up f
whose inquiry_id references the stored inquiry i is permitted for a
stored caller c iff c can SELECT i, that is iff c is admin or co-leader
or i is assigned to c; and the follow-up SELECT rule is the same
condition as the INSERT rule. -/
theorem followup_insert_iff_parent_visible (db : DB) (c : Profile) (i : Inquiry) (f : FollowUp)
    (hndp : (db.profiles.map Profile.id).Nodup) (hc : c ∈ db.profiles)
    (hndi : (db.inquiries.map Inquiry.id).Nodup) (hi : i ∈ db.inquiries)
    (hf : f.inquiry_id = i.id) :
    (followUpsInsertAllowed db c.id f = true ↔ inquiriesSelectAllowed db c.id i = true) ∧
    (followUpsInsertAllowed db c.id f = true ↔
      (c.role = Role.admin ∨ c.role = Role.co_leader ∨ i.assigned_to = some c.id)) ∧
    (∀ g : FollowUp, followUpsSelectAllowed db c.id g = followUpsInsertAllowed db c.id g) := by
  have key : followUpsInsertAllowed db c.id f = true ↔
      (c.role = Role.admin ∨ c.role = Role.co_leader ∨ i.assigned_to = some c.id) := by
    unfold followUpsInsertAllowed usersCanCreateFollowUpsForAccessibleInquiries
    simp only [List.any_eq_true, Bool.and_eq_true, Bool.or_eq_true, decide_eq_true_eq]
    constructor
    · rintro ⟨i', hi', p, hp, ⟨hpid, hiid⟩, hcond⟩
      have hpe : p = c := eq_of_mem_of_id_eq hndp hp hc hpid
      have hie : i' = i := inquiry_eq_of_mem_of_id_eq hndi hi' hi (hiid.trans hf)
      subst hpe
      subst hie
      tauto
    · intro h
      exact ⟨i, hi, c, hc, ⟨rfl, hf.symm⟩, by tauto⟩
  have hsel : inquiriesSelectAllowed db c.id i = true ↔
      (c.role = Role.admin ∨ c.role = Role.co_leader ∨ i.assigned_to = some c.id) := by
    unfold inquiriesSelectAllowed adminsAndCoLeadersCanViewAllInquiries
      employeesCanViewAssignedInquiries
    simp only [Bool.or_eq_true, decide_eq_true_eq, isAdminOrCoLeader_iff hndp hc]
    tauto
  exact ⟨key.trans hsel.symm, key, fun g => rfl⟩

/-- Witness for C6 at the sample database, with the employee caller and
the assigned sample inquiry. -/
theorem followup_insert_iff_parent_visible_witness :
    ((sampleDB.profiles.map Profile.id).Nodup ∧ employeeRow ∈ sampleDB.profiles ∧
      (sampleDB.inquiries.map Inquiry.id).Nodup ∧ inquiryRow ∈ sampleDB.inquiries ∧
      followUpRow.inquiry_id = inquiryRow.id) ∧
    ((followUpsInsertAllowed sampleDB employeeRow.id followUpRow = true ↔
        inquiriesSelectAllowed sampleDB employeeRow.id inquiryRow = true) ∧
      (followUpsInsertAllowed sampleDB employeeRow.id followUpRow = true ↔
        (employeeRow.role = Role.admin ∨ employeeRow.role = Role.co_leader ∨
          inquiryRow.assigned_to = some employeeRow.id)) ∧
      (∀ g : FollowUp, followUpsSelectAllowed sampleDB employeeRow.id g =
        followUpsInsertAllowed sampleDB employeeRow.id g)) :=
  ⟨⟨by decide, by decide, by decide, by decide, by decide⟩,
    followup_insert_iff_parent_visible sampleDB employeeRow inquiryRow followUpRow
      (by decide) (by decide) (by decide) (by decide) (by decide)⟩

/-- C7: the migration declares no DELETE policy on follow_ups, so with
RLS enabled the DELETE permission is false for every caller and row,
and a direct delete request leaves the database unchanged. -/
theorem followup_delete_denied (db : DB) (uid fid : Nat) (f : FollowUp) :
    followUpsDeleteAllowed db uid f = false ∧
    applyOp db (Op.deleteFollowUp uid fid) = db := by
  constructor
  · rfl
  · simp [applyOp, followUpsDeleteAllowed, followUpsDeletePolicies]

/-- A state passing the schema constraint check has no orphaned
follow-ups. -/
theorem noOrphan_of_constraintsOk {db : DB} (h : constraintsOk db = true) :
    NoOrphanFollowUps db := by
  unfold constraintsOk at h
  simp only [Bool.and_eq_true, List.all_eq_true] at h
  intro f hf
  have h2 := h.2 f hf
  have h3 := h2.1
  unfold refOk at h3
  simp only [List.any_eq_true, decide_eq_true_eq, List.mem_map] at h3
  obtain ⟨x, ⟨i, hi, hix⟩, hxf⟩ := h3
  exact ⟨i, hi, hix.trans hxf⟩

/-- The constraint gate preserves the no-orphan integrity. -/
theorem noOrphan_checked {db db' : DB} (h : NoOrphanFollowUps db) :
    NoOrphanFollowUps (checked db db') := by
  unfold checked
  split
  · exact noOrphan_of_constraintsOk (by assumption)
  · exact h

/-- Every single write request preserves the no-orphan integrity:
inserts and updates are gated by the constraint check, the profile
delete only rewrites nullable columns, and the inquiry delete cascades
to the referencing follow-ups. -/
theorem noOrphan_applyOp (db : DB) (op : Op) (h : NoOrphanFollowUps db) :
    NoOrphanFollowUps (applyOp db op) := by
  cases op with
  | insertProfile uid row =>
    simp only [applyOp]
    split
    · exact noOrphan_checked h
    · exact h
  | updateProfile uid pid row =>
    simp only [applyOp]
    exact noOrphan_checked h
  | deleteProfile uid pid =>
    intro f hf
    simp only [applyOp, List.mem_map] at hf ⊢
    obtain ⟨f0, hf0, rfl⟩ := hf
    obtain ⟨i, hi, hid⟩ := h f0 hf0
    exact ⟨_, ⟨i, hi, rfl⟩, hid⟩
  | insertInquiry uid row =>
    simp only [applyOp]
    split
    · exact noOrphan_checked h
    · exact h
  | updateInquiry uid iid row =>
    simp only [applyOp]
    exact noOrphan_checked h
  | deleteInquiry uid iid =>
    intro f hf
    simp only [applyOp, List.mem_filter] at hf ⊢
    obtain ⟨hf0, hkeep⟩ := hf
    rw [Bool.not_eq_true', List.any_eq_false] at hkeep
    obtain ⟨i, hi, hid⟩ := h f hf0
    refine ⟨i, ⟨hi, ?_⟩, hid⟩
    rw [Bool.not_eq_true']
    cases hdel : inquiryRowDeleted db uid iid i with
    | false => rfl
    | true => exact absurd (by simp [hdel, hid]) (hkeep i hi)
  | insertFollowUp uid row =>
    simp only [applyOp]
    split
    · exact noOrphan_checked h
    · exact h
  | updateFollowUp uid fid row =>
    simp only [applyOp]
    exact noOrphan_checked h
  | deleteFollowUp uid fid =>
    intro f hf
    simp only [applyOp, List.mem_filter] at hf ⊢
    exact h f hf.1

/-- Any sequence of write requests preserves the no-orphan integrity. -/
theorem noOrphan_applyOps (db : DB) (ops : List Op) (h : NoOrphanFollowUps db) :
    NoOrphanFollowUps (applyOps db ops) := by
  induction ops generalizing db with
  | nil => exact h
  | cons op rest ih => exact ih (applyOp db op) (noOrphan_applyOp db op h)

/-- C8: when a stored admin caller deletes the stored inquiry i, exactly
the follow-ups with inquiry_id = i.id disappear and every other
follow-up survives; and after any sequence of write requests a state
with no orphaned follow-ups still has none. -/
theorem inquiry_delete_cascade (db : DB) (c : Profile) (i : Inquiry)
    (hc : c ∈ db.profiles) (hadmin : c.role = Role.admin) (hi : i ∈ db.inquiries) :
    (∀ f : FollowUp,
      f ∈ (applyOp db (Op.deleteInquiry c.id i.id)).follow_ups ↔
        (f ∈ db.follow_ups ∧ f.inquiry_id ≠ i.id)) ∧
    (∀ ops : List Op, NoOrphanFollowUps db → NoOrphanFollowUps (applyOps db ops)) := by
  have hadm : hasRole db c.id Role.admin = true := hasRole_of_mem hc hadmin
  constructor
  · intro f
    simp only [applyOp, List.mem_filter, inquiryRowDeleted, inquiriesDeleteAllowed,
      onlyAdminsCanDeleteInquiries, hadm, Bool.and_true, Bool.not_eq_true',
      List.any_eq_false, Bool.and_eq_true, decide_eq_true_eq, not_and]
    refine and_congr_right fun hf => ⟨fun hall heq => hall i hi rfl heq.symm, ?_⟩
    intro hne i' hi' h1 h2
    exact hne (h2.symm.trans h1)
  · intro ops h
    exact noOrphan_applyOps db ops h

/-- Witness for C8 at the sample database, with the admin caller and
the sample inquiry. -/
theorem inquiry_delete_cascade_witness :
    (adminRow ∈ sampleDB.profiles ∧ adminRow.role = Role.admin ∧
      inquiryRow ∈ sampleDB.inquiries) ∧
    ((∀ f : FollowUp,
        f ∈ (applyOp sampleDB (Op.deleteInquiry adminRow.id inquiryRow.id)).follow_ups ↔
          (f ∈ sampleDB.follow_ups ∧ f.inquiry_id ≠ inquiryRow.id)) ∧
      (∀ ops : List Op,
        NoOrphanFollowUps sampleDB → NoOrphanFollowUps (applyOps sampleDB ops))) :=
  ⟨⟨by decide, by decide, by decide⟩,
    inquiry_delete_cascade sampleDB adminRow inquiryRow (by decide) (by decide) (by decide)⟩

/-- For a stored admin caller deleting a stored profile, the SET NULL
action clears exactly the references equal to the deleted key. -/
theorem setNullProfileRef_eq (db : DB) (c p : Profile) (hc : c ∈ db.profiles)
    (hadmin : c.role = Role.admin) (hp : p ∈ db.profiles) (r : Option Nat) :
    setNullProfileRef db c.id p.id r = if r = some p.id then none else r := by
  have hadm : hasRole db c.id Role.admin = true := hasRole_of_mem hc hadmin
  have hany : ∀ a : Nat,
      (db.profiles.any fun q => profileRowDeleted db c.id p.id q && decide (q.id = a)) = true ↔
        a = p.id := by
    intro a
    unfold profileRowDeleted profilesDeleteAllowed onlyAdminsCanDeleteProfiles
    simp only [List.any_eq_true, Bool.and_eq_true, decide_eq_true_eq, hadm, and_true]
    constructor
    · rintro ⟨q, hq, h1, h2⟩
      exact h2.symm.trans h1
    · rintro rfl
      exact ⟨p, hp, rfl, rfl⟩
  unfold setNullProfileRef
  cases r with
  | none => simp
  | some a =>
    simp only [Option.some_bind]
    by_cases hap : a = p.id
    · rw [if_pos ((hany a).mpr hap), if_pos (by rw [hap])]
    · rw [if_neg fun hh => hap ((hany a).mp hh),
        if_neg fun hh => hap (Option.some.inj hh)]

/-- C9: when a stored admin caller deletes the stored profile p, every
inquiry row survives with assigned_to and created_by cleared exactly
where they referenced p and every other column unchanged, and every
follow-up row survives with created_by cleared exactly where it
referenced p and every other column unchanged. -/
theorem profile_delete_set_null (db : DB) (c p : Profile)
    (hc : c ∈ db.profiles) (hadmin : c.role = Role.admin) (hp : p ∈ db.profiles) :
    (applyOp db (Op.deleteProfile c.id p.id)).inquiries =
      db.inquiries.map (fun i =>
        { i with
          assigned_to := if i.assigned_to = some p.id then none else i.assigned_to
          created_by := if i.created_by = some p.id then none else i.created_by }) ∧
    (applyOp db (Op.deleteProfile c.id p.id)).follow_ups =
      db.follow_ups.map (fun f =>
        { f with created_by := if f.created_by = some p.id then none else f.created_by }) := by
  constructor
  · simp only [applyOp]
    exact List.map_congr_left fun i _ => by
      rw [setNullProfileRef_eq db c p hc hadmin hp, setNullProfileRef_eq db c p hc hadmin hp]
  · simp only [applyOp]
    exact List.map_congr_left fun f _ => by
      rw [setNullProfileRef_eq db c p hc hadmin hp]

/-- Witness for C9 at the sample database: the admin deletes the
employee profile referenced by the sample inquiry and follow-up. -/
theorem profile_delete_set_null_witness :
    (adminRow ∈ sampleDB.profiles ∧ adminRow.role = Role.admin ∧
      employeeRow ∈ sampleDB.profiles) ∧
    ((applyOp sampleDB (Op.deleteProfile adminRow.id employeeRow.id)).inquiries =
      sampleDB.inquiries.map (fun i =>
        { i with
          assigned_to := if i.assigned_to = some employeeRow.id then none else i.assigned_to
          created_by := if i.created_by = some employeeRow.id then none else i.created_by }) ∧
    (applyOp sampleDB (Op.deleteProfile adminRow.id employeeRow.id)).follow_ups =
      sampleDB.follow_ups.map (fun f =>
        { f with created_by :=
            if f.created_by = some employeeRow.id then none else f.created_by })) :=
  ⟨⟨by decide, by decide, by decide⟩,
    profile_delete_set_null sampleDB adminRow employeeRow (by decide) (by decide) (by decide)⟩

/-- C10: no policy predicate reads is_active.  Rewriting the activation
flag of every stored profile arbitrarily, and of the row arguments of
the profiles-table policies, changes no authorization decision on any
table or operation — so a deactivated account keeps exactly the access
of its active twin at the policy layer. -/
theorem is_active_never_read (g : Profile → Bool) (db : DB) (uid : Nat) :
    (∀ (p : Profile) (b : Bool),
      profilesSelectAllowed (overwriteIsActive g db) uid { p with is_active := b } =
        profilesSelectAllowed db uid p) ∧
    (∀ (p : Profile) (b : Bool),
      profilesInsertAllowed (overwriteIsActive g db) uid { p with is_active := b } =
        profilesInsertAllowed db uid p) ∧
    (∀ (p q : Profile) (b b' : Bool),
      profilesUpdateAllowed (overwriteIsActive g db) uid { p with is_active := b }
          { q with is_active := b' } =
        profilesUpdateAllowed db uid p q) ∧
    (∀ (p : Profile) (b : Bool),
      profilesDeleteAllowed (overwriteIsActive g db) uid { p with is_active := b } =
        profilesDeleteAllowed db uid p) ∧
    (∀ i : Inquiry,
      inquiriesSelectAllowed (overwriteIsActive g db) uid i = inquiriesSelectAllowed db uid i) ∧
    (∀ i : Inquiry,
      inquiriesInsertAllowed (overwriteIsActive g db) uid i = inquiriesInsertAllowed db uid i) ∧
    (∀ i j : Inquiry,
      inquiriesUpdateAllowed (overwriteIsActive g db) uid i j =
        inquiriesUpdateAllowed db uid i j) ∧
    (∀ i : Inquiry,
      inquiriesDeleteAllowed (overwriteIsActive g db) uid i = inquiriesDeleteAllowed db uid i) ∧
    (∀ f : FollowUp,
      followUpsSelectAllowed (overwriteIsActive g db) uid f = followUpsSelectAllowed db uid f) ∧
    (∀ f : FollowUp,
      followUpsInsertAllowed (overwriteIsActive g db) uid f = followUpsInsertAllowed db uid f) ∧
    (∀ f h : FollowUp,
      followUpsUpdateAllowed (overwriteIsActive g db) uid f h =
        followUpsUpdateAllowed db uid f h) ∧
    (∀ f : FollowUp,
      followUpsDeleteAllowed (overwriteIsActive g db) uid f = followUpsDeleteAllowed db uid f) := by
  have hrole : ∀ r : Role, hasRole (overwriteIsActive g db) uid r = hasRole db uid r := by
    intro r
    unfold hasRole overwriteIsActive
    simp [List.any_map, Function.comp_def]
  have hadm : isAdminOrCoLeader (overwriteIsActive g db) uid = isAdminOrCoLeader db uid := by
    unfold isAdminOrCoLeader overwriteIsActive
    simp [List.any_map, Function.comp_def]
  have hview : ∀ f : FollowUp,
      usersCanViewFollowUpsForAccessibleInquiries (overwriteIsActive g db) uid f =
        usersCanViewFollowUpsForAccessibleInquiries db uid f := by
    intro f
    unfold usersCanViewFollowUpsForAccessibleInquiries overwriteIsActive
    simp [List.any_map, Function.comp_def]
  have hcreate : ∀ f : FollowUp,
      usersCanCreateFollowUpsForAccessibleInquiries (overwriteIsActive g db) uid f =
        usersCanCreateFollowUpsForAccessibleInquiries db uid f := by
    intro f
    unfold usersCanCreateFollowUpsForAccessibleInquiries overwriteIsActive
    simp [List.any_map, Function.comp_def]
  refine ⟨?_, ?_, ?_, ?_, ?_, ?_, ?_, ?_, ?_, ?_, ?_, ?_⟩
  · intro p b
    unfold profilesSelectAllowed adminsCanViewAllProfiles coLeadersCanViewAllProfiles
      employeesCanViewOwnProfile
    rw [hrole, hrole]
  · intro p b
    unfold profilesInsertAllowed onlyAdminsCanInsertProfiles
    rw [hrole]
  · intro p q b b'
    unfold profilesUpdateAllowed onlyAdminsCanUpdateProfilesUsing
      onlyAdminsCanUpdateProfilesCheck
    rw [hrole]
  · intro p b
    unfold profilesDeleteAllowed onlyAdminsCanDeleteProfiles
    rw [hrole]
  · intro i
    unfold inquiriesSelectAllowed adminsAndCoLeadersCanViewAllInquiries
      employeesCanViewAssignedInquiries
    rw [hadm]
  · intro i
    unfold inquiriesInsertAllowed adminsAndCoLeadersCanCreateInquiries
    rw [hadm]
  · intro i j
    unfold inquiriesUpdateAllowed adminsAndCoLeadersCanUpdateAllInquiriesUsing
      adminsAndCoLeadersCanUpdateAllInquiriesCheck employeesCanUpdateAssignedInquiriesUsing
      employeesCanUpdateAssignedInquiriesCheck
    rw [hadm]
  · intro i
    unfold inquiriesDeleteAllowed onlyAdminsCanDeleteInquiries
    rw [hrole]
  · intro f
    unfold followUpsSelectAllowed
    rw [hview]
  · intro f
    unfold followUpsInsertAllowed
    rw [hcreate]
  · intro f h
    rfl
  · intro f
    rfl

end NambaThaa
